import Mathlib

/-!
Shallow embedding of the Deal Admin Hub backend (src/main.py, src/schemas.py).

The document store (database.py is not part of the sources; only its
interface is used by main.py) is modelled as four in-memory lists, one per
collection, in insertion order.  `create_document` assigns a fresh identifier
from a monotone counter; the same counter serves as the `created_at`
ordering key, so "find_one sorted by created_at descending" is the last
matching element of the list and plain `find_one` is the first matching
element (MongoDB natural order).  Random `uuid4().hex` tokens and the
current time are passed to each handler as explicit parameters.
Monetary float fields are modelled as rationals; they are only ever copied,
never computed with.
-/

namespace DealHub

/-- Free-form JSON-object blobs (`my_details`, `terms`, ...) restricted to
string values, which is all the handlers ever read from them. -/
abbrev Blob := List (String × String)

/-- Python `d.get(k)`: first binding of the key, if any. -/
def Blob.get? (b : Blob) (k : String) : Option String :=
  (b.find? (fun p => p.1 == k)).map (fun p => p.2)

/-- Python `d.get(k1) or d.get(k2, "")`: `None` and `""` are both falsy. -/
def Blob.getOrKey (b : Blob) (k1 k2 : String) : String :=
  match b.get? k1 with
  | some v => if v = "" then (b.get? k2).getD "" else v
  | none => (b.get? k2).getD ""

/-- Python `x or default` on an optional string: `None` and `""` are falsy. -/
def pyOrStr (a : Option String) (b : String) : String :=
  match a with
  | some s => if s = "" then b else s
  | none => b

/-- Python `str.lower()` (ASCII data only in this system): every character
lower-cased. -/
def pyLower (s : String) : String :=
  String.mk (s.data.map Char.toLower)

/-- Python `str.capitalize()`: first character upper-cased, the rest
lower-cased. -/
def pyCapitalize (s : String) : String :=
  match s.data with
  | [] => ""
  | c :: rest => String.mk (c.toUpper :: rest.map Char.toLower)

/-- MongoDB `update_one` / `find_one_and_update`: rewrite only the first
document matching the filter. -/
def updateFirst (p : α → Bool) (f : α → α) : List α → List α
  | [] => []
  | x :: xs => if p x then f x :: xs else x :: updateFirst p f xs

/-- MongoDB `find_one(filter, sort=[("created_at", -1)])`: with `created_at`
equal to the insertion counter this is the last matching element. -/
def findLatest (p : α → Bool) (l : List α) : Option α :=
  l.reverse.find? p

/-! ## Stored documents (schemas.py, plus the fields set by updates) -/

/-- Collection `deal` (schemas.py `Deal`), with the store-generated `_id`
and `created_at`. -/
structure DealDoc where
  id : Nat
  created_at : Nat
  client_name : String
  client_company : Option String := none
  client_contact : Option String := none
  project_name : String
  project_description : Option String := none
  my_name : String := "Dimiro Networks / 59 Shift"
  my_contact : Option String := none
  status : String := "active"
deriving Repr, DecidableEq

/-- Collection `mou` (schemas.py `Mou`).  `signed_at` is stored as the
ISO string written by `sign_mou`. -/
structure MouDoc where
  id : Nat
  created_at : Nat
  deal_id : Nat
  my_details : Blob
  client_details : Blob
  project : Blob
  terms : Blob
  status : String
  sign_token : String
  signed_at : Option String := none
  client_signature_name : Option String := none
  client_signature_title : Option String := none
deriving Repr, DecidableEq

/-- Collection `invoice` (schemas.py `Invoice`). -/
structure InvoiceDoc where
  id : Nat
  created_at : Nat
  deal_id : Nat
  my_details : Blob
  client_name : String
  project_name : String
  invoice_number : String
  invoice_date : String
  due_date : Option String := none
  amount : Rat
  currency : String
  bank_details : Blob
  payment_reference : String
  status : String
  view_token : String
  paid_at : Option String := none
  payment_method : Option String := none
  amount_received : Option Rat := none
deriving Repr, DecidableEq

/-- Collection `receipt` (schemas.py `Receipt`). -/
structure ReceiptDoc where
  id : Nat
  created_at : Nat
  invoice_token : String
  deal_id : Nat
  my_details : Blob
  client_name : String
  project_name : String
  invoice_number : String
  original_amount : Rat
  amount_paid : Rat
  payment_date : String
  payment_method : String
  payment_reference : String
deriving Repr, DecidableEq

/-- The whole document store.  `nextId` is the monotone counter used for
both generated identifiers and `created_at`. -/
structure Store where
  deals : List DealDoc
  mous : List MouDoc
  invoices : List InvoiceDoc
  receipts : List ReceiptDoc
  nextId : Nat
deriving Repr, DecidableEq

def emptyStore : Store := ⟨[], [], [], [], 0⟩

/-! ## Request and response bodies (main.py pydantic models) -/

structure CreateMouRequest where
  my_details : Blob
  client_details : Blob
  project : Blob
  terms : Blob
deriving Repr, DecidableEq

structure SignMouRequest where
  name : String
  title : String
  agree : Bool
deriving Repr, DecidableEq

structure CreateInvoiceRequest where
  my_details : Blob
  client_name : String
  project_name : String
  invoice_number : String
  invoice_date : String
  due_date : Option String := none
  amount : Rat
  currency : String
  bank_details : Blob
  payment_reference : String
deriving Repr, DecidableEq

structure MarkPaidRequest where
  payment_date : Option String := none
  payment_method : String
  amount_received : Rat
  payment_reference : String
deriving Repr, DecidableEq

/-- The two `HTTPException` classes raised by the handlers. -/
inductive ApiErr where
  | notFound (detail : String)
  | invalidRequest (detail : String)
deriving Repr, DecidableEq

/-- HTTP status code of an error. -/
def ApiErr.code : ApiErr → Nat
  | .notFound _ => 404
  | .invalidRequest _ => 400

/-- Outcome of a handler that can raise. -/
inductive HandlerResult (α : Type) where
  | ok (value : α)
  | err (e : ApiErr)
deriving Repr, DecidableEq

structure CreateMouResp where
  mou_id : Nat
  sign_url_token : String
deriving Repr, DecidableEq

structure CreateInvoiceResp where
  invoice_id : Nat
  view_url_token : String
deriving Repr, DecidableEq

structure MarkPaidResp where
  status : String
  receipt_id : Nat
deriving Repr, DecidableEq

/-- One of the two `{status, link}` projections of the snapshot response. -/
structure StatusLink where
  status : String
  link : Option String
deriving Repr, DecidableEq

structure SnapshotResp where
  client_name : String
  project_name : String
  mou : StatusLink
  invoice : StatusLink
  receipt_available : Bool
  next_step : String
deriving Repr, DecidableEq

/-! ## Handlers (main.py) -/

/-- The `Deal(...)` document built by `create_mou`; `n` is the generated
identifier. -/
def mouNewDeal (payload : CreateMouRequest) (n : Nat) : DealDoc :=
  { id := n
    created_at := n
    client_name := payload.client_details.getOrKey "client_name" "name"
    client_company := payload.client_details.get? "company"
    client_contact := payload.client_details.get? "contact"
    project_name := (payload.project.get? "name").getD ""
    project_description := payload.project.get? "description" }

/-- The `Mou(...)` document built by `create_mou`; its identifier is the
one generated after the deal's, `n + 1`. -/
def mouNewMou (payload : CreateMouRequest) (token : String) (n : Nat) :
    MouDoc :=
  { id := n + 1
    created_at := n + 1
    deal_id := n
    my_details := payload.my_details
    client_details := payload.client_details
    project := payload.project
    terms := payload.terms
    status := "sent"
    sign_token := token }

/-- `POST /api/mou` (main.py `create_mou`).  `token` stands for the
`uuid4().hex` generated in the handler. -/
def create_mou (payload : CreateMouRequest) (token : String) (st : Store) :
    CreateMouResp × Store :=
  (⟨st.nextId + 1, token⟩,
    { st with
      deals := st.deals ++ [mouNewDeal payload st.nextId]
      mous := st.mous ++ [mouNewMou payload token st.nextId]
      nextId := st.nextId + 2 })

/-- `GET /api/mou/{token}` (main.py `get_mou_by_token`): read-only. -/
def get_mou_by_token (token : String) (st : Store) : HandlerResult MouDoc :=
  match st.mous.find? (fun m => m.sign_token == token) with
  | none => .err (.notFound "MOU not found")
  | some doc => .ok doc

/-- The `$set` document applied by `sign_mou`'s `find_one_and_update`. -/
def signSet (payload : SignMouRequest) (now : String) (m : MouDoc) : MouDoc :=
  { m with
    status := "signed"
    client_signature_name := some payload.name
    client_signature_title := some payload.title
    signed_at := some now }

/-- `POST /api/mou/{token}/sign` (main.py `sign_mou`).  `now` stands for
`datetime.utcnow().isoformat()`. -/
def sign_mou (token : String) (payload : SignMouRequest) (now : String)
    (st : Store) : HandlerResult String × Store :=
  if payload.agree = false then
    (.err (.invalidRequest "Agreement checkbox is required"), st)
  else
    match st.mous.find? (fun m => m.sign_token == token) with
    | none => (.err (.notFound "MOU not found"), st)
    | some _ =>
      (.ok "signed",
        { st with
          mous := updateFirst (fun m => m.sign_token == token)
            (signSet payload now) st.mous })

/-- The filter used by `create_invoice` and `deal_snapshot` to look a Deal
up by its `(client_name, project_name)` pair. -/
def dealMatches (client_name project_name : String) (d : DealDoc) : Bool :=
  d.client_name == client_name && d.project_name == project_name

/-- The fallback `Deal(...)` document built by `create_invoice` when no
deal matches the `(client_name, project_name)` pair. -/
def invoiceNewDeal (payload : CreateInvoiceRequest) (n : Nat) : DealDoc :=
  { id := n
    created_at := n
    client_name := payload.client_name
    project_name := payload.project_name }

/-- The `Invoice(...)` document built by `create_invoice`. -/
def invoiceNewInvoice (payload : CreateInvoiceRequest) (token : String)
    (deal_id : Nat) (n : Nat) : InvoiceDoc :=
  { id := n
    created_at := n
    deal_id := deal_id
    my_details := payload.my_details
    client_name := payload.client_name
    project_name := payload.project_name
    invoice_number := payload.invoice_number
    invoice_date := payload.invoice_date
    due_date := payload.due_date
    amount := payload.amount
    currency := payload.currency
    bank_details := payload.bank_details
    payment_reference := payload.payment_reference
    status := "sent"
    view_token := token }

/-- `POST /api/invoice` (main.py `create_invoice`).  `token` stands for the
`uuid4().hex` generated in the handler. -/
def create_invoice (payload : CreateInvoiceRequest) (token : String)
    (st : Store) : CreateInvoiceResp × Store :=
  match st.deals.find? (dealMatches payload.client_name payload.project_name) with
  | none =>
    (⟨st.nextId + 1, token⟩,
      { st with
        deals := st.deals ++ [invoiceNewDeal payload st.nextId]
        invoices := st.invoices ++
          [invoiceNewInvoice payload token st.nextId (st.nextId + 1)]
        nextId := st.nextId + 2 })
  | some deal =>
    (⟨st.nextId, token⟩,
      { st with
        invoices := st.invoices ++
          [invoiceNewInvoice payload token deal.id st.nextId]
        nextId := st.nextId + 1 })

/-- `GET /api/invoice/{token}` (main.py `get_invoice_by_token`): read-only. -/
def get_invoice_by_token (token : String) (st : Store) :
    HandlerResult InvoiceDoc :=
  match st.invoices.find? (fun i => i.view_token == token) with
  | none => .err (.notFound "Invoice not found")
  | some doc => .ok doc

/-- The `Receipt(...)` document built by `mark_invoice_paid`, copying
fields from the looked-up invoice `doc` and from the request. -/
def newReceipt (token : String) (payload : MarkPaidRequest)
    (doc : InvoiceDoc) (payment_date : String) (n : Nat) : ReceiptDoc :=
  { id := n
    created_at := n
    invoice_token := token
    deal_id := doc.deal_id
    my_details := doc.my_details
    client_name := doc.client_name
    project_name := doc.project_name
    invoice_number := doc.invoice_number
    original_amount := doc.amount
    amount_paid := payload.amount_received
    payment_date := payment_date
    payment_method := payload.payment_method
    payment_reference := payload.payment_reference }

/-- The `$set` document applied by `mark_invoice_paid`'s `update_one`. -/
def paidSet (payload : MarkPaidRequest) (payment_date : String)
    (i : InvoiceDoc) : InvoiceDoc :=
  { i with
    status := "paid"
    paid_at := some payment_date
    payment_method := some payload.payment_method
    amount_received := some payload.amount_received }

/-- `POST /api/invoice/{token}/paid` (main.py `mark_invoice_paid`).
`today` stands for `datetime.utcnow().date().isoformat()`. -/
def mark_invoice_paid (token : String) (payload : MarkPaidRequest)
    (today : String) (st : Store) : HandlerResult MarkPaidResp × Store :=
  match st.invoices.find? (fun i => i.view_token == token) with
  | none => (.err (.notFound "Invoice not found"), st)
  | some doc =>
    (.ok ⟨"paid", st.nextId⟩,
      { st with
        invoices := updateFirst (fun i => i.view_token == token)
          (paidSet payload (pyOrStr payload.payment_date today)) st.invoices
        receipts := st.receipts ++
          [newReceipt token payload doc
            (pyOrStr payload.payment_date today) st.nextId]
        nextId := st.nextId + 1 })

/-- The inner `mou_status()` function of `deal_snapshot`: "Draft" with no
link when no MOU was found, else the stored status capitalized and a
signing link from the (truthy) `sign_token`. -/
def mou_status (mou : Option MouDoc) : StatusLink :=
  match mou with
  | none => ⟨"Draft", none⟩
  | some m =>
    ⟨pyCapitalize m.status,
      if m.sign_token == "" then none else some ("/sign/" ++ m.sign_token)⟩

/-- The inner `invoice_status()` function of `deal_snapshot`. -/
def invoice_status (invoice : Option InvoiceDoc) : StatusLink :=
  match invoice with
  | none => ⟨"Draft", none⟩
  | some i =>
    ⟨pyCapitalize i.status,
      if i.view_token == "" then none else some ("/invoice/" ++ i.view_token)⟩

/-- `GET /api/deal/snapshot` (main.py `deal_snapshot`): read-only. -/
def deal_snapshot (client_name project_name : String) (st : Store) :
    HandlerResult SnapshotResp :=
  match st.deals.find? (dealMatches client_name project_name) with
  | none => .err (.notFound "Deal not found")
  | some deal =>
    let mou := findLatest (fun (m : MouDoc) => m.deal_id == deal.id) st.mous
    let invoice :=
      findLatest (fun (i : InvoiceDoc) => i.deal_id == deal.id) st.invoices
    let receipt :=
      match invoice with
      | none => none
      | some inv =>
        findLatest (fun (r : ReceiptDoc) => r.invoice_token == inv.view_token)
          st.receipts
    let ms := pyLower (mou_status mou).status
    let ins := pyLower (invoice_status invoice).status
    let hint :=
      if ms == "draft" then "Next: Generate sign link and send to client."
      else if ms == "signed" && ins == "draft" then
        "Next: Generate invoice and send."
      else if ins == "paid" && receipt.isNone then
        "Next: Generate receipt and send."
      else ""
    .ok ⟨client_name, project_name, mou_status mou, invoice_status invoice,
      receipt.isSome, hint⟩

/-! ## Transition system: states reachable through the handlers -/

/-- One state-mutating handler invocation.  The token parameters stand for
`uuid4().hex` values, which are 32-character strings, never empty. -/
inductive Step : Store → Store → Prop where
  | createMou (p : CreateMouRequest) (tok : String) (st : Store)
      (htok : tok ≠ "") : Step st (create_mou p tok st).2
  | signMou (tok : String) (p : SignMouRequest) (now : String) (st : Store) :
      Step st (sign_mou tok p now st).2
  | createInvoice (p : CreateInvoiceRequest) (tok : String) (st : Store)
      (htok : tok ≠ "") : Step st (create_invoice p tok st).2
  | markPaid (tok : String) (p : MarkPaidRequest) (today : String)
      (st : Store) : Step st (mark_invoice_paid tok p today st).2

/-- Store states reachable from the empty store through the handlers. -/
inductive Reachable : Store → Prop where
  | init : Reachable emptyStore
  | step {st st' : Store} : Reachable st → Step st st' → Reachable st'

/-! ## Store invariants -/

def DealOk (d : DealDoc) (n : Nat) : Prop := d.status = "active" ∧ d.id < n

def MouOk (m : MouDoc) (n : Nat) : Prop :=
  m.sign_token ≠ "" ∧ m.id < n ∧
    ((m.status = "sent" ∧ m.signed_at = none ∧
      m.client_signature_name = none ∧ m.client_signature_title = none) ∨
     m.status = "signed")

def InvoiceOk (i : InvoiceDoc) (n : Nat) : Prop :=
  i.view_token ≠ "" ∧ i.id < n ∧ (i.status = "sent" ∨ i.status = "paid")

def ReceiptOk (r : ReceiptDoc) (n : Nat) : Prop := r.id < n

def StoreInv (st : Store) : Prop :=
  (∀ d ∈ st.deals, DealOk d st.nextId) ∧
  (∀ m ∈ st.mous, MouOk m st.nextId) ∧
  (∀ i ∈ st.invoices, InvoiceOk i st.nextId) ∧
  (∀ r ∈ st.receipts, ReceiptOk r st.nextId)

/-! ## Helper lemmas -/

theorem updateFirst_length (p : α → Bool) (f : α → α) (l : List α) :
    (updateFirst p f l).length = l.length := by
  induction l with
  | nil => rfl
  | cons x xs ih =>
    simp only [updateFirst]
    split <;> simp [ih]

theorem mem_updateFirst {p : α → Bool} {f : α → α} {l : List α} {x : α}
    (h : x ∈ updateFirst p f l) :
    x ∈ l ∨ ∃ y, y ∈ l ∧ p y = true ∧ x = f y := by
  induction l with
  | nil => simp [updateFirst] at h
  | cons a as ih =>
    simp only [updateFirst] at h
    by_cases hp : p a
    · rw [if_pos hp] at h
      rcases List.mem_cons.mp h with h1 | h1
      · exact Or.inr ⟨a, List.mem_cons_self a as, hp, h1⟩
      · exact Or.inl (List.mem_cons_of_mem _ h1)
    · rw [if_neg hp] at h
      rcases List.mem_cons.mp h with h1 | h1
      · exact Or.inl (h1 ▸ List.mem_cons_self a as)
      · rcases ih h1 with h2 | ⟨y, hy, hpy, hxy⟩
        · exact Or.inl (List.mem_cons_of_mem _ h2)
        · exact Or.inr ⟨y, List.mem_cons_of_mem _ hy, hpy, hxy⟩

theorem updateFirst_getElem? (p : α → Bool) (f : α → α) (l : List α)
    (i : Nat) :
    (updateFirst p f l)[i]? = l[i]? ∨
      ∃ y, l[i]? = some y ∧ p y = true ∧
        (updateFirst p f l)[i]? = some (f y) := by
  induction l generalizing i with
  | nil => simp [updateFirst]
  | cons a as ih =>
    cases i with
    | zero =>
      simp only [updateFirst]
      by_cases hp : p a
      · exact Or.inr ⟨a, by simp, hp, by simp [if_pos hp]⟩
      · simp [if_neg hp]
    | succ n =>
      simp only [updateFirst]
      by_cases hp : p a
      · simp [if_pos hp]
      · simp only [if_neg hp, List.getElem?_cons_succ]
        exact ih n

theorem findLatest_eq_none {p : α → Bool} {l : List α} :
    findLatest p l = none ↔ ∀ x ∈ l, ¬ p x = true := by
  simp [findLatest, List.find?_eq_none]

theorem findLatest_some {p : α → Bool} {l : List α} {x : α}
    (h : findLatest p l = some x) : x ∈ l ∧ p x = true := by
  refine ⟨?_, List.find?_some h⟩
  have := List.mem_of_find?_eq_some h
  simpa using this

theorem findLatest_isSome {p : α → Bool} {l : List α} :
    (findLatest p l).isSome = true ↔ ∃ x ∈ l, p x = true := by
  constructor
  · intro h
    rcases Option.isSome_iff_exists.mp h with ⟨x, hx⟩
    rcases findLatest_some hx with ⟨h1, h2⟩
    exact ⟨x, h1, h2⟩
  · rintro ⟨x, hx, hpx⟩
    rcases Option.eq_none_or_eq_some (findLatest p l) with h | ⟨y, hy⟩
    · exact absurd hpx (findLatest_eq_none.mp h x hx)
    · simp [hy]

theorem storeInv_empty : StoreInv emptyStore := by
  simp [StoreInv, emptyStore]

theorem storeInv_create_mou (p : CreateMouRequest) (tok : String) (st : Store)
    (htok : tok ≠ "") (h : StoreInv st) : StoreInv (create_mou p tok st).2 := by
  obtain ⟨hd, hm, hi, hr⟩ := h
  simp only [create_mou, StoreInv, List.mem_append, List.mem_singleton]
  refine ⟨?_, ?_, ?_, ?_⟩
  · rintro d (hmem | rfl)
    · obtain ⟨h1, h2⟩ := hd d hmem
      exact ⟨h1, by omega⟩
    · exact ⟨rfl, by show st.nextId < st.nextId + 2 ; omega⟩
  · rintro m (hmem | rfl)
    · obtain ⟨h1, h2, h3⟩ := hm m hmem
      exact ⟨h1, by omega, h3⟩
    · exact ⟨htok, by show st.nextId + 1 < st.nextId + 2 ; omega,
        Or.inl ⟨rfl, rfl, rfl, rfl⟩⟩
  · intro i hmem
    obtain ⟨h1, h2, h3⟩ := hi i hmem
    exact ⟨h1, by omega, h3⟩
  · intro r hmem
    have := hr r hmem
    simp only [ReceiptOk] at this ⊢
    omega

theorem storeInv_sign_mou (tok : String) (p : SignMouRequest) (now : String)
    (st : Store) (h : StoreInv st) : StoreInv (sign_mou tok p now st).2 := by
  obtain ⟨hd, hm, hi, hr⟩ := h
  by_cases ha : p.agree = false
  · simp only [sign_mou, if_pos ha]
    exact ⟨hd, hm, hi, hr⟩
  · simp only [sign_mou, if_neg ha]
    rcases hfind : st.mous.find? (fun m => m.sign_token == tok) with _ | m
    · simp only [hfind]
      exact ⟨hd, hm, hi, hr⟩
    · simp only [hfind]
      refine ⟨hd, ?_, hi, hr⟩
      intro x hx
      rcases mem_updateFirst hx with hmem | ⟨y, hy, hpy, rfl⟩
      · exact hm x hmem
      · obtain ⟨h1, h2, _⟩ := hm y hy
        exact ⟨h1, h2, Or.inr rfl⟩

theorem storeInv_create_invoice (p : CreateInvoiceRequest) (tok : String)
    (st : Store) (htok : tok ≠ "") (h : StoreInv st) :
    StoreInv (create_invoice p tok st).2 := by
  obtain ⟨hd, hm, hi, hr⟩ := h
  rcases hfind :
      st.deals.find? (dealMatches p.client_name p.project_name) with _ | deal
  · simp only [create_invoice, hfind, StoreInv, List.mem_append,
      List.mem_singleton]
    refine ⟨?_, ?_, ?_, ?_⟩
    · rintro d (hmem | rfl)
      · obtain ⟨h1, h2⟩ := hd d hmem
        exact ⟨h1, by omega⟩
      · exact ⟨rfl, by show st.nextId < st.nextId + 1 + 1 ; omega⟩
    · intro m hmem
      obtain ⟨h1, h2, h3⟩ := hm m hmem
      exact ⟨h1, by omega, h3⟩
    · rintro i (hmem | rfl)
      · obtain ⟨h1, h2, h3⟩ := hi i hmem
        exact ⟨h1, by omega, h3⟩
      · exact ⟨htok, by show st.nextId + 1 < st.nextId + 1 + 1 ; omega,
          Or.inl rfl⟩
    · intro r hmem
      have := hr r hmem
      simp only [ReceiptOk] at this ⊢
      omega
  · simp only [create_invoice, hfind, StoreInv, List.mem_append,
      List.mem_singleton]
    refine ⟨?_, ?_, ?_, ?_⟩
    · intro d hmem
      obtain ⟨h1, h2⟩ := hd d hmem
      exact ⟨h1, by omega⟩
    · intro m hmem
      obtain ⟨h1, h2, h3⟩ := hm m hmem
      exact ⟨h1, by omega, h3⟩
    · rintro i (hmem | rfl)
      · obtain ⟨h1, h2, h3⟩ := hi i hmem
        exact ⟨h1, by omega, h3⟩
      · exact ⟨htok, by show st.nextId < st.nextId + 1 ; omega, Or.inl rfl⟩
    · intro r hmem
      have := hr r hmem
      simp only [ReceiptOk] at this ⊢
      omega

theorem storeInv_mark_paid (tok : String) (p : MarkPaidRequest)
    (today : String) (st : Store) (h : StoreInv st) :
    StoreInv (mark_invoice_paid tok p today st).2 := by
  obtain ⟨hd, hm, hi, hr⟩ := h
  rcases hfind : st.invoices.find? (fun i => i.view_token == tok) with _ | doc
  · simp only [mark_invoice_paid, hfind]
    exact ⟨hd, hm, hi, hr⟩
  · simp only [mark_invoice_paid, hfind, StoreInv, List.mem_append,
      List.mem_singleton]
    refine ⟨?_, ?_, ?_, ?_⟩
    · intro d hmem
      obtain ⟨h1, h2⟩ := hd d hmem
      exact ⟨h1, by omega⟩
    · intro m hmem
      obtain ⟨h1, h2, h3⟩ := hm m hmem
      exact ⟨h1, by omega, h3⟩
    · intro x hx
      rcases mem_updateFirst hx with hmem | ⟨y, hy, hpy, rfl⟩
      · obtain ⟨h1, h2, h3⟩ := hi x hmem
        exact ⟨h1, by omega, h3⟩
      · obtain ⟨h1, h2, _⟩ := hi y hy
        exact ⟨h1, by show y.id < st.nextId + 1 ; omega, Or.inr rfl⟩
    · rintro r (hmem | rfl)
      · have := hr r hmem
        simp only [ReceiptOk] at this ⊢
        omega
      · simp only [ReceiptOk, newReceipt]
        omega

theorem storeInv_step {st st' : Store} (h : StoreInv st) (hs : Step st st') :
    StoreInv st' := by
  cases hs with
  | createMou p tok st htok => exact storeInv_create_mou p tok st htok h
  | signMou tok p now st => exact storeInv_sign_mou tok p now st h
  | createInvoice p tok st htok => exact storeInv_create_invoice p tok st htok h
  | markPaid tok p today st => exact storeInv_mark_paid tok p today st h

theorem storeInv_reachable {st : Store} (h : Reachable st) : StoreInv st := by
  induction h with
  | init => exact storeInv_empty
  | step _ hs ih => exact storeInv_step ih hs

/-! ## Concrete walkthrough states used in witnesses and counterexamples -/

/-- MOU-creation payload for the ("Acme", "Website") pair. -/
def acmePayload : CreateMouRequest :=
  ⟨[], [("client_name", "Acme")], [("name", "Website")], []⟩

/-- Invoice-creation payload for the same ("Acme", "Website") pair. -/
def acmeInvoiceReq : CreateInvoiceRequest :=
  { my_details := []
    client_name := "Acme"
    project_name := "Website"
    invoice_number := "INV-1"
    invoice_date := "2026-01-02"
    amount := 500
    currency := "EUR"
    bank_details := []
    payment_reference := "REF-1" }

def acmeMarkPaidReq : MarkPaidRequest :=
  { payment_method := "bank"
    amount_received := 500
    payment_reference := "REF-1" }

def stMou : Store := (create_mou acmePayload "tok1" emptyStore).2

def stSigned : Store :=
  (sign_mou "tok1" ⟨"Alice", "CEO", true⟩ "2026-01-01T00:00:00" stMou).2

def stResigned : Store :=
  (sign_mou "tok1" ⟨"Bob", "CTO", true⟩ "2026-01-02T00:00:00" stSigned).2

def stInvoiced : Store := (create_invoice acmeInvoiceReq "vtok1" stSigned).2

def stPaid : Store :=
  (mark_invoice_paid "vtok1" acmeMarkPaidReq "2026-01-03" stInvoiced).2

theorem reachable_stMou : Reachable stMou :=
  Reachable.step Reachable.init
    (Step.createMou acmePayload "tok1" emptyStore (by decide))

theorem reachable_stSigned : Reachable stSigned :=
  Reachable.step reachable_stMou
    (Step.signMou "tok1" ⟨"Alice", "CEO", true⟩ "2026-01-01T00:00:00" stMou)

theorem reachable_stResigned : Reachable stResigned :=
  Reachable.step reachable_stSigned
    (Step.signMou "tok1" ⟨"Bob", "CTO", true⟩ "2026-01-02T00:00:00" stSigned)

theorem reachable_stInvoiced : Reachable stInvoiced :=
  Reachable.step reachable_stSigned
    (Step.createInvoice acmeInvoiceReq "vtok1" stSigned (by decide))

theorem reachable_stPaid : Reachable stPaid :=
  Reachable.step reachable_stInvoiced
    (Step.markPaid "vtok1" acmeMarkPaidReq "2026-01-03" stInvoiced)

/-! ## Claims -/

/-- C7: for every sign request with `agree = false`, on any token and any
store, the handler yields the InvalidRequest error (HTTP 400) and the
store — every collection — is returned unchanged. -/
theorem sign_rejected_without_agreement (tok : String) (p : SignMouRequest)
    (now : String) (st : Store) (h : p.agree = false) :
    sign_mou tok p now st =
      (.err (.invalidRequest "Agreement checkbox is required"), st) ∧
    (ApiErr.invalidRequest "Agreement checkbox is required").code = 400 := by
  refine ⟨?_, rfl⟩
  simp [sign_mou, h]

/-- C7 witness: a concrete rejected signing attempt. -/
theorem sign_rejected_without_agreement_witness :
    sign_mou "tok1" ⟨"Eve", "COO", false⟩ "2026-01-05" stMou =
      (.err (.invalidRequest "Agreement checkbox is required"), stMou) :=
  (sign_rejected_without_agreement "tok1" ⟨"Eve", "COO", false⟩ "2026-01-05"
    stMou rfl).1

/-- C6: mark-paid fails with NotFound (404) iff no Invoice holds the view
token; whenever some Invoice holds it — regardless of that invoice's
status — the call succeeds and appends one more Receipt for the token, so
marking an already-receipted token paid again yields a second, duplicate
Receipt. -/
theorem mark_paid_notfound_iff (tok : String) (p : MarkPaidRequest)
    (today : String) (st : Store) :
    ((mark_invoice_paid tok p today st).1 =
        .err (.notFound "Invoice not found") ↔
      ∀ i ∈ st.invoices, i.view_token ≠ tok) ∧
    (ApiErr.notFound "Invoice not found").code = 404 ∧
    (∀ i ∈ st.invoices, i.view_token = tok →
      (mark_invoice_paid tok p today st).1 = .ok ⟨"paid", st.nextId⟩ ∧
      ∃ doc, st.invoices.find? (fun j => j.view_token == tok) = some doc ∧
        (mark_invoice_paid tok p today st).2.receipts = st.receipts ++
          [newReceipt tok p doc (pyOrStr p.payment_date today) st.nextId]) ∧
    ((∃ i ∈ st.invoices, i.view_token = tok) →
      (∃ r0 ∈ st.receipts, r0.invoice_token = tok) →
      2 ≤ (mark_invoice_paid tok p today st).2.receipts.countP
        (fun r => r.invoice_token == tok)) := by
  rcases hf : st.invoices.find? (fun i => i.view_token == tok) with _ | doc
  · have hnone := List.find?_eq_none.mp hf
    refine ⟨⟨fun _ i hi => by simpa using hnone i hi, fun _ => ?_⟩, rfl,
      fun i hi hitok => absurd (by simpa using hitok) (hnone i hi), ?_⟩
    · simp [mark_invoice_paid, hf]
    · rintro ⟨i, hi, hitok⟩ _
      exact absurd (by simpa using hitok) (hnone i hi)
  · have hdoc := List.find?_some hf
    have hdocmem := List.mem_of_find?_eq_some hf
    refine ⟨⟨fun habs _ _ => ?_, fun hall => ?_⟩, rfl, fun i hi hitok => ?_, ?_⟩
    · simp [mark_invoice_paid, hf] at habs
    · exact absurd (by simpa using hdoc) (hall doc hdocmem)
    · exact ⟨by simp [mark_invoice_paid, hf], doc, hf,
        by simp [mark_invoice_paid, hf]⟩
    · rintro ⟨i, hi, hitok⟩ ⟨r0, hr0, hr0tok⟩
      have hcount : 0 < st.receipts.countP (fun r => r.invoice_token == tok) :=
        List.countP_pos_iff.mpr ⟨r0, hr0, by simpa using hr0tok⟩
      have hrec : (mark_invoice_paid tok p today st).2.receipts =
          st.receipts ++
            [newReceipt tok p doc (pyOrStr p.payment_date today) st.nextId] := by
        simp [mark_invoice_paid, hf]
      rw [hrec, List.countP_append]
      have : (([newReceipt tok p doc (pyOrStr p.payment_date today)
          st.nextId]).countP (fun r => r.invoice_token == tok)) = 1 := by
        simp [newReceipt]
      omega

/-- C6 witness: a second mark-paid on the already-paid concrete invoice
produces a duplicate receipt. -/
theorem mark_paid_notfound_iff_witness :
    2 ≤ (mark_invoice_paid "vtok1" acmeMarkPaidReq "2026-01-04"
      stPaid).2.receipts.countP (fun r => r.invoice_token == "vtok1") :=
  (mark_paid_notfound_iff "vtok1" acmeMarkPaidReq "2026-01-04"
    stPaid).2.2.2 (by decide) (by decide)

/-- C4: when the request pair exactly matches an existing Deal (first match
in natural order) `create_invoice` creates no new Deal and the new Invoice
references the matched Deal's identifier; with no matching Deal it inserts
exactly one new Deal carrying the request's names, referenced by the new
Invoice. -/
theorem create_invoice_deal_dedup (p : CreateInvoiceRequest) (tok : String)
    (st : Store) :
    (∀ d, st.deals.find? (dealMatches p.client_name p.project_name) = some d →
      (create_invoice p tok st).2.deals = st.deals ∧
      d ∈ st.deals ∧ dealMatches p.client_name p.project_name d = true ∧
      (create_invoice p tok st).2.invoices = st.invoices ++
        [invoiceNewInvoice p tok d.id st.nextId] ∧
      (invoiceNewInvoice p tok d.id st.nextId).deal_id = d.id) ∧
    ((∀ d ∈ st.deals, ¬ dealMatches p.client_name p.project_name d = true) →
      (create_invoice p tok st).2.deals = st.deals ++
        [invoiceNewDeal p st.nextId] ∧
      (invoiceNewDeal p st.nextId).client_name = p.client_name ∧
      (invoiceNewDeal p st.nextId).project_name = p.project_name ∧
      (create_invoice p tok st).2.invoices = st.invoices ++
        [invoiceNewInvoice p tok st.nextId (st.nextId + 1)] ∧
      (invoiceNewInvoice p tok st.nextId (st.nextId + 1)).deal_id =
        (invoiceNewDeal p st.nextId).id) := by
  constructor
  · intro d hfd
    exact ⟨by simp [create_invoice, hfd], List.mem_of_find?_eq_some hfd,
      List.find?_some hfd, by simp [create_invoice, hfd], rfl⟩
  · intro hall
    have hf : st.deals.find? (dealMatches p.client_name p.project_name) =
        none := List.find?_eq_none.mpr hall
    exact ⟨by simp [create_invoice, hf], rfl, rfl,
      by simp [create_invoice, hf], rfl⟩

/-- C4 witness: the concrete invoice creation on the ("Acme", "Website")
pair reuses the existing Deal. -/
theorem create_invoice_deal_dedup_witness :
    stInvoiced.deals = stSigned.deals :=
  ((create_invoice_deal_dedup acmeInvoiceReq "vtok1" stSigned).1
    (mouNewDeal acmePayload 0) (by decide)).1

/-- C10: Deal documents are immutable: every handler step either leaves
the deal collection unchanged or appends one new Deal at the end (no
update, no delete), and every stored Deal of a reachable store still has
the status "active" it was created with. -/
theorem deals_immutable :
    (∀ st st', Step st st' →
      st'.deals = st.deals ∨ ∃ d, st'.deals = st.deals ++ [d]) ∧
    (∀ st, Reachable st → ∀ d ∈ st.deals, d.status = "active") := by
  constructor
  · intro st st' hs
    cases hs with
    | createMou p tok st htok => exact Or.inr ⟨_, rfl⟩
    | signMou tok p now st =>
      by_cases ha : p.agree = false
      · simp [sign_mou, ha]
      · rcases hf : st.mous.find? (fun m => m.sign_token == tok) with _ | m <;>
          simp [sign_mou, if_neg ha, hf]
    | createInvoice p tok st htok =>
      rcases hf : st.deals.find?
          (dealMatches p.client_name p.project_name) with _ | d
      · refine Or.inr ⟨invoiceNewDeal p st.nextId, ?_⟩
        simp [create_invoice, hf]
      · exact Or.inl (by simp [create_invoice, hf])
    | markPaid tok p today st =>
      rcases hf : st.invoices.find? (fun i => i.view_token == tok) with _ | doc
      · exact Or.inl (by simp [mark_invoice_paid, hf])
      · exact Or.inl (by simp [mark_invoice_paid, hf])
  · intro st h d hd
    exact ((storeInv_reachable h).1 d hd).1

/-- C10 witness: the concrete Deal of the walkthrough keeps status
"active". -/
theorem deals_immutable_witness :
    (mouNewDeal acmePayload 0).status = "active" :=
  deals_immutable.2 stMou reachable_stMou (mouNewDeal acmePayload 0)
    (by decide)

/-- C3 counterexample: a Deal created by MOU creation for ("Acme",
"Website") IS reused by a later invoice creation on the same pair: the
deal collection is unchanged and the new Invoice references the
MOU-created Deal's identifier. -/
theorem invoice_reuses_mou_deal_cex :
    stInvoiced.deals = stMou.deals ∧
    stMou.deals.map (fun d => d.id) = [0] ∧
    stInvoiced.invoices.map (fun i => i.deal_id) = [0] :=
  ⟨rfl, rfl, rfl⟩

/-- C3 amended: MOU creation always inserts a brand-new Deal (its
identifier differs from every already-stored Deal's) and never reuses an
existing one; Invoice creation, however, reuses the first Deal matching
the name pair whatever its origin — including Deals created by MOU
creation. -/
theorem deal_creation_asymmetry :
    (∀ st, Reachable st → ∀ p tok,
      (create_mou p tok st).2.deals = st.deals ++ [mouNewDeal p st.nextId] ∧
      ∀ d ∈ st.deals, d.id ≠ (mouNewDeal p st.nextId).id) ∧
    (∀ st p tok d,
      st.deals.find? (dealMatches p.client_name p.project_name) = some d →
      (create_invoice p tok st).2.deals = st.deals ∧
      (create_invoice p tok st).2.invoices = st.invoices ++
        [invoiceNewInvoice p tok d.id st.nextId]) := by
  constructor
  · intro st hr p tok
    refine ⟨rfl, fun d hd => ?_⟩
    have hlt := ((storeInv_reachable hr).1 d hd).2
    show d.id ≠ st.nextId
    omega
  · intro st p tok d hfd
    exact ⟨by simp [create_invoice, hfd], by simp [create_invoice, hfd]⟩

/-- C3 witness: the concrete invoice creation over the signed-MOU store
reuses the MOU-created Deal's identifier. -/
theorem deal_creation_asymmetry_witness :
    stInvoiced.invoices = stSigned.invoices ++
      [invoiceNewInvoice acmeInvoiceReq "vtok1" (mouNewDeal acmePayload 0).id
        stSigned.nextId] :=
  (deal_creation_asymmetry.2 stSigned acmeInvoiceReq "vtok1"
    (mouNewDeal acmePayload 0) (by decide)).2

/-- C9 counterexample: MOU creation whose client-details and project blobs
supply no name keys is not rejected: it still inserts a Deal (with empty
names) and an Mou and returns the new identifier and token. -/
theorem mou_creation_missing_names_cex :
    (create_mou ⟨[], [], [], []⟩ "tok9" emptyStore).2.deals.map
      (fun d => (d.client_name, d.project_name)) = [("", "")] ∧
    (create_mou ⟨[], [], [], []⟩ "tok9" emptyStore).2.mous.length = 1 ∧
    (create_mou ⟨[], [], [], []⟩ "tok9" emptyStore).1 = ⟨1, "tok9"⟩ :=
  ⟨rfl, rfl, rfl⟩

/-- C9 amended: MOU creation never rejects; the created Deal's client_name
comes from client_details.client_name when present and non-empty, else
from client_details.name, defaulting to the empty string, and its
project_name comes from project.name, defaulting to the empty string. -/
theorem mou_creation_name_sources (p : CreateMouRequest) (tok : String)
    (st : Store) :
    (create_mou p tok st).2.deals = st.deals ++ [mouNewDeal p st.nextId] ∧
    (mouNewDeal p st.nextId).client_name =
      p.client_details.getOrKey "client_name" "name" ∧
    (∀ v, p.client_details.get? "client_name" = some v → v ≠ "" →
      (mouNewDeal p st.nextId).client_name = v) ∧
    (p.client_details.get? "client_name" = none →
      (mouNewDeal p st.nextId).client_name =
        (p.client_details.get? "name").getD "") ∧
    (mouNewDeal p st.nextId).project_name =
      (p.project.get? "name").getD "" := by
  refine ⟨rfl, rfl, fun v hv hne => ?_, fun hn => ?_, rfl⟩
  · show p.client_details.getOrKey "client_name" "name" = v
    simp [Blob.getOrKey, hv, hne]
  · show p.client_details.getOrKey "client_name" "name" =
      (p.client_details.get? "name").getD ""
    simp [Blob.getOrKey, hn]

/-- C9 witness: the concrete payload's client_name key is preferred. -/
theorem mou_creation_name_sources_witness :
    (mouNewDeal acmePayload 0).client_name = "Acme" :=
  (mou_creation_name_sources acmePayload "tok1" emptyStore).2.2.1 "Acme"
    rfl (by decide)

/-- C2 counterexample: the hint "Next: Generate invoice and send." IS
returned by the snapshot of a reachable store — one whose MOU is signed
and which has no Invoice, so the placeholder invoice status "Draft"
satisfies rule 2. -/
theorem invoice_hint_reachable_cex :
    Reachable stSigned ∧
    deal_snapshot "Acme" "Website" stSigned =
      .ok ⟨"Acme", "Website", ⟨"Signed", some "/sign/tok1"⟩, ⟨"Draft", none⟩,
        false, "Next: Generate invoice and send."⟩ :=
  ⟨reachable_stSigned, by decide⟩

/-- C2 amended: the hint IS reachable, but only through the no-invoice
placeholder: in every reachable store each stored Invoice's status is
"sent" or "paid" (never "draft"), and whenever a snapshot of a reachable
store returns "Next: Generate invoice and send." its invoice projection
is the placeholder ⟨"Draft", none⟩, i.e. no Invoice references the deal. -/
theorem invoice_hint_only_via_placeholder (st : Store) (hr : Reachable st) :
    (∀ i ∈ st.invoices, i.status = "sent" ∨ i.status = "paid") ∧
    (∀ cn pn r, deal_snapshot cn pn st = .ok r →
      r.next_step = "Next: Generate invoice and send." →
      r.invoice = ⟨"Draft", none⟩) := by
  have hinv := (storeInv_reachable hr).2.2.1
  refine ⟨fun i hi => (hinv i hi).2.2, ?_⟩
  intro cn pn r hok hstep
  rcases hfd : st.deals.find? (dealMatches cn pn) with _ | deal
  · simp [deal_snapshot, hfd] at hok
  · simp only [deal_snapshot, hfd, HandlerResult.ok.injEq] at hok
    subst hok
    rcases hfl : findLatest (fun (i : InvoiceDoc) => i.deal_id == deal.id)
        st.invoices with _ | inv
    · simp [hfl, invoice_status]
    · exfalso
      simp only [hfl] at hstep
      have hmem := (findLatest_some hfl).1
      have hins : (pyLower (invoice_status (some inv)).status == "draft") =
          false := by
        rcases hinv inv hmem with ⟨-, -, hs | hs⟩ <;>
          simp only [invoice_status, hs] <;> decide
      simp only [hins, Bool.and_false, Bool.false_eq_true, if_false] at hstep
      split at hstep
      · exact absurd hstep (by decide)
      · split at hstep
        · exact absurd hstep (by decide)
        · exact absurd hstep (by decide)

theorem getElem?_lt_length {l : List α} {i : Nat} {a : α}
    (h : l[i]? = some a) : i < l.length := by
  by_contra hlt
  rw [List.getElem?_eq_none (by omega)] at h
  cases h

theorem mem_of_getElem? {l : List α} {i : Nat} {a : α}
    (h : l[i]? = some a) : a ∈ l := by
  induction l generalizing i with
  | nil => cases h
  | cons x xs ih =>
    cases i with
    | zero =>
      simp only [List.getElem?_cons_zero, Option.some.injEq] at h
      exact h ▸ List.mem_cons_self x xs
    | succ n =>
      simp only [List.getElem?_cons_succ] at h
      exact List.mem_cons_of_mem _ (ih h)

/-- C2 witness: the concrete stored Invoice of the walkthrough has status
"sent" or "paid". -/
theorem invoice_hint_only_via_placeholder_witness :
    (invoiceNewInvoice acmeInvoiceReq "vtok1" 0 2).status = "sent" ∨
    (invoiceNewInvoice acmeInvoiceReq "vtok1" 0 2).status = "paid" :=
  (invoice_hint_only_via_placeholder stInvoiced reachable_stInvoiced).1
    (invoiceNewInvoice acmeInvoiceReq "vtok1" 0 2) (by decide)

/-- C8 counterexample: signing is not guarded against repetition: a second
successful sign on the same token overwrites the already-populated
signature fields (Alice becomes Bob), so they are not populated only
once. -/
theorem mou_signature_overwritten_cex :
    Reachable stResigned ∧
    stSigned.mous.map (fun m => m.client_signature_name) = [some "Alice"] ∧
    stResigned.mous.map (fun m => m.client_signature_name) = [some "Bob"] ∧
    (sign_mou "tok1" ⟨"Bob", "CTO", true⟩ "2026-01-02T00:00:00" stSigned).1 =
      .ok "signed" :=
  ⟨reachable_stResigned, rfl, rfl, rfl⟩

/-- C8 amended: in every reachable store each Mou is either "sent" with
all three signature fields unset, or "signed"; across any handler step an
existing Mou's status either stays the same or moves "sent" to "signed";
and only the sign operation writes signature fields: MOU creation appends
an unsigned Mou and the invoice handlers never touch the mou collection.
(Repeated signing may overwrite the fields, per the counterexample.) -/
theorem mou_status_transitions :
    (∀ st, Reachable st → ∀ m ∈ st.mous,
      (m.status = "sent" ∧ m.signed_at = none ∧
        m.client_signature_name = none ∧ m.client_signature_title = none) ∨
      m.status = "signed") ∧
    (∀ st st', Reachable st → Step st st' → ∀ (i : Nat) (m m' : MouDoc),
      st.mous[i]? = some m → st'.mous[i]? = some m' →
      m'.status = m.status ∨ (m.status = "sent" ∧ m'.status = "signed")) ∧
    (∀ p tok st,
      (create_mou p tok st).2.mous = st.mous ++ [mouNewMou p tok st.nextId] ∧
      (mouNewMou p tok st.nextId).signed_at = none ∧
      (mouNewMou p tok st.nextId).client_signature_name = none ∧
      (mouNewMou p tok st.nextId).client_signature_title = none) ∧
    (∀ p tok st, (create_invoice p tok st).2.mous = st.mous) ∧
    (∀ tok p today st, (mark_invoice_paid tok p today st).2.mous = st.mous) := by
  have hmous_ci : ∀ (p : CreateInvoiceRequest) (tok : String) (st : Store),
      (create_invoice p tok st).2.mous = st.mous := by
    intro p tok st
    rcases hf : st.deals.find?
        (dealMatches p.client_name p.project_name) with _ | d <;>
      simp [create_invoice, hf]
  have hmous_mp : ∀ (tok : String) (p : MarkPaidRequest) (today : String)
      (st : Store), (mark_invoice_paid tok p today st).2.mous = st.mous := by
    intro tok p today st
    rcases hf : st.invoices.find? (fun i => i.view_token == tok) with _ | doc <;>
      simp [mark_invoice_paid, hf]
  refine ⟨?_, ?_, fun p tok st => ⟨rfl, rfl, rfl, rfl⟩, hmous_ci, hmous_mp⟩
  · intro st hr m hm
    exact ((storeInv_reachable hr).2.1 m hm).2.2
  · intro st st' hr hs i m m' hm hm'
    cases hs with
    | createMou p tok st htok =>
      have hlen := getElem?_lt_length hm
      have : (st.mous ++ [mouNewMou p tok st.nextId])[i]? = st.mous[i]? :=
        List.getElem?_append_left hlen
      rw [show (create_mou p tok st).2.mous =
          st.mous ++ [mouNewMou p tok st.nextId] from rfl, this, hm] at hm'
      cases hm'
      exact Or.inl rfl
    | signMou tok p now st =>
      by_cases ha : p.agree = false
      · rw [show (sign_mou tok p now st).2 = st by simp [sign_mou, ha]] at hm'
        rw [hm] at hm'
        cases hm'
        exact Or.inl rfl
      · rcases hf : st.mous.find? (fun x => x.sign_token == tok) with _ | y
        · rw [show (sign_mou tok p now st).2 = st by
            simp [sign_mou, if_neg ha, hf]] at hm'
          rw [hm] at hm'
          cases hm'
          exact Or.inl rfl
        · rw [show (sign_mou tok p now st).2.mous =
              updateFirst (fun x => x.sign_token == tok) (signSet p now)
                st.mous by simp [sign_mou, if_neg ha, hf]] at hm'
          rcases updateFirst_getElem? (fun x => x.sign_token == tok)
              (signSet p now) st.mous i with heq | ⟨y2, hy2, hpy2, hset⟩
          · rw [heq, hm] at hm'
            cases hm'
            exact Or.inl rfl
          · rw [hm] at hy2
            cases hy2
            rw [hset] at hm'
            cases hm'
            rcases ((storeInv_reachable hr).2.1 m
                (mem_of_getElem? hm)).2.2 with hsent | hsigned
            · exact Or.inr ⟨hsent.1, rfl⟩
            · exact Or.inl (by rw [hsigned]; rfl)
    | createInvoice p tok st htok =>
      rw [hmous_ci p tok st, hm] at hm'
      cases hm'
      exact Or.inl rfl
    | markPaid tok p today st =>
      rw [hmous_mp tok p today st, hm] at hm'
      cases hm'
      exact Or.inl rfl

/-- C8 witness: the freshly created concrete Mou satisfies the reachable
invariant. -/
theorem mou_status_transitions_witness :
    ((mouNewMou acmePayload "tok1" 0).status = "sent" ∧
      (mouNewMou acmePayload "tok1" 0).signed_at = none ∧
      (mouNewMou acmePayload "tok1" 0).client_signature_name = none ∧
      (mouNewMou acmePayload "tok1" 0).client_signature_title = none) ∨
    (mouNewMou acmePayload "tok1" 0).status = "signed" :=
  mou_status_transitions.1 stMou reachable_stMou
    (mouNewMou acmePayload "tok1" 0) (by decide)

def emptyDateReq : MarkPaidRequest :=
  { payment_date := some ""
    payment_method := "bank"
    amount_received := 500
    payment_reference := "REF-2" }

/-- C5 counterexample: a mark-paid request that supplies the empty string
as payment_date does not get it stored as paid_at — the current date is
stored instead (Python falsiness of ""), contradicting "paid_at equal to
the caller-supplied payment_date". -/
theorem mark_paid_empty_date_cex :
    emptyDateReq.payment_date = some "" ∧
    (mark_invoice_paid "vtok1" emptyDateReq "2026-10-12"
        stInvoiced).2.invoices.map (fun i => i.paid_at) =
      [some "2026-10-12"] ∧
    ("2026-10-12" : String) ≠ "" :=
  ⟨rfl, rfl, by decide⟩

/-- C5 amended: mark-paid on a token held by an Invoice of a reachable
store updates the first such Invoice to status "paid" with paid_at the
caller-supplied payment_date when non-empty, else the current date;
appends exactly one Receipt whose amount_paid is the request's
amount_received and whose invoice_token is the token; and the returned
receipt_id resolves by identifier lookup to that Receipt. -/
theorem mark_paid_effects (st : Store) (hr : Reachable st) (tok : String)
    (p : MarkPaidRequest) (today : String) (doc : InvoiceDoc)
    (hfind : st.invoices.find? (fun i => i.view_token == tok) = some doc) :
    (mark_invoice_paid tok p today st).1 = .ok ⟨"paid", st.nextId⟩ ∧
    (mark_invoice_paid tok p today st).2.invoices =
      updateFirst (fun i => i.view_token == tok)
        (paidSet p (pyOrStr p.payment_date today)) st.invoices ∧
    (paidSet p (pyOrStr p.payment_date today) doc).status = "paid" ∧
    (paidSet p (pyOrStr p.payment_date today) doc).paid_at =
      some (pyOrStr p.payment_date today) ∧
    (p.payment_date = none → pyOrStr p.payment_date today = today) ∧
    (∀ v, p.payment_date = some v → v ≠ "" →
      pyOrStr p.payment_date today = v) ∧
    (mark_invoice_paid tok p today st).2.receipts = st.receipts ++
      [newReceipt tok p doc (pyOrStr p.payment_date today) st.nextId] ∧
    (newReceipt tok p doc (pyOrStr p.payment_date today)
      st.nextId).amount_paid = p.amount_received ∧
    (newReceipt tok p doc (pyOrStr p.payment_date today)
      st.nextId).invoice_token = tok ∧
    (mark_invoice_paid tok p today st).2.receipts.find?
        (fun rc => rc.id == st.nextId) =
      some (newReceipt tok p doc (pyOrStr p.payment_date today) st.nextId) := by
  have hrecinv := (storeInv_reachable hr).2.2.2
  refine ⟨by simp [mark_invoice_paid, hfind],
    by simp [mark_invoice_paid, hfind], rfl, rfl,
    fun hn => by simp [pyOrStr, hn],
    fun v hv hne => by simp [pyOrStr, hv, hne],
    by simp [mark_invoice_paid, hfind], rfl, rfl, ?_⟩
  have hrec : (mark_invoice_paid tok p today st).2.receipts = st.receipts ++
      [newReceipt tok p doc (pyOrStr p.payment_date today) st.nextId] := by
    simp [mark_invoice_paid, hfind]
  rw [hrec, List.find?_append]
  have hnone : st.receipts.find? (fun rc => rc.id == st.nextId) = none := by
    apply List.find?_eq_none.mpr
    intro r hrmem
    have hlt := hrecinv r hrmem
    simp only [ReceiptOk] at hlt
    simp only [beq_iff_eq]
    omega
  rw [hnone]
  simp [newReceipt]

/-- C5 witness: the concrete mark-paid call succeeds with the generated
receipt identifier. -/
theorem mark_paid_effects_witness :
    (mark_invoice_paid "vtok1" acmeMarkPaidReq "2026-01-03" stInvoiced).1 =
      .ok ⟨"paid", stInvoiced.nextId⟩ :=
  (mark_paid_effects stInvoiced reachable_stInvoiced "vtok1" acmeMarkPaidReq
    "2026-01-03" (invoiceNewInvoice acmeInvoiceReq "vtok1" 0 2)
    (by decide)).1

theorem isNone_eq_not_isSome (o : Option α) : o.isNone = !o.isSome := by
  cases o <;> rfl

/-- C1: the snapshot contract.  On a reachable store, the snapshot fails
with NotFound (404) iff no Deal matches the pair exactly; otherwise, for
the first matching Deal, the response projects the most recent MOU
("Draft" with null link when none references the deal, else the stored
status capitalized with a link from its sign_token), likewise the most
recent Invoice keyed on view_token; receipt_available is true iff a
Receipt matches the most recent Invoice's view_token; and next_step is the
first matching rule, in order: lowercased MOU status "draft", then MOU
"signed" with Invoice "draft", then Invoice "paid" with no Receipt, else
the empty string. -/
theorem snapshot_contract (st : Store) (hr : Reachable st) (cn pn : String) :
    (deal_snapshot cn pn st = .err (.notFound "Deal not found") ↔
      ∀ d ∈ st.deals, ¬ dealMatches cn pn d = true) ∧
    (ApiErr.notFound "Deal not found").code = 404 ∧
    (∀ d, st.deals.find? (dealMatches cn pn) = some d →
      ∃ r, deal_snapshot cn pn st = .ok r ∧
        (findLatest (fun (m : MouDoc) => m.deal_id == d.id) st.mous = none →
          r.mou = ⟨"Draft", none⟩) ∧
        (∀ m, findLatest (fun (m2 : MouDoc) => m2.deal_id == d.id) st.mous =
            some m →
          r.mou = ⟨pyCapitalize m.status, some ("/sign/" ++ m.sign_token)⟩) ∧
        (findLatest (fun (i : InvoiceDoc) => i.deal_id == d.id) st.invoices =
            none →
          r.invoice = ⟨"Draft", none⟩) ∧
        (∀ i, findLatest (fun (i2 : InvoiceDoc) => i2.deal_id == d.id)
            st.invoices = some i →
          r.invoice =
            ⟨pyCapitalize i.status, some ("/invoice/" ++ i.view_token)⟩) ∧
        (r.receipt_available = true ↔
          ∃ i, findLatest (fun (i2 : InvoiceDoc) => i2.deal_id == d.id)
              st.invoices = some i ∧
            ∃ rc ∈ st.receipts, rc.invoice_token = i.view_token) ∧
        r.next_step =
          (if pyLower r.mou.status == "draft" then
            "Next: Generate sign link and send to client."
          else if pyLower r.mou.status == "signed" &&
              pyLower r.invoice.status == "draft" then
            "Next: Generate invoice and send."
          else if pyLower r.invoice.status == "paid" &&
              !r.receipt_available then
            "Next: Generate receipt and send."
          else "")) := by
  obtain ⟨-, hmouinv, hinvinv, -⟩ := storeInv_reachable hr
  refine ⟨?_, rfl, ?_⟩
  · rcases hfd : st.deals.find? (dealMatches cn pn) with _ | deal
    · constructor
      · intro _ d hd
        exact List.find?_eq_none.mp hfd d hd
      · intro _
        simp [deal_snapshot, hfd]
    · constructor
      · intro habs
        simp [deal_snapshot, hfd] at habs
      · intro hall
        exact absurd (List.find?_some hfd)
          (hall deal (List.mem_of_find?_eq_some hfd))
  · intro d hfd
    simp only [deal_snapshot, hfd]
    refine ⟨_, rfl, ?_, ?_, ?_, ?_, ?_, ?_⟩
    · intro h
      simp [h, mou_status]
    · intro m hm
      have hmem := (findLatest_some hm).1
      have htk : (m.sign_token == "") = false :=
        beq_eq_false_iff_ne.mpr (hmouinv m hmem).1
      simp [mou_status, hm, htk]
    · intro h
      simp [h, invoice_status]
    · intro i hi
      have hmem := (findLatest_some hi).1
      have htk : (i.view_token == "") = false :=
        beq_eq_false_iff_ne.mpr (hinvinv i hmem).1
      simp [invoice_status, hi, htk]
    · rcases hfl : findLatest (fun (i2 : InvoiceDoc) => i2.deal_id == d.id)
          st.invoices with _ | inv
      · simp [hfl]
      · simp only [hfl, Option.some.injEq]
        constructor
        · intro h
          obtain ⟨rc, hrc, hbeq⟩ := findLatest_isSome.mp h
          exact ⟨inv, rfl, rc, hrc, by simpa using hbeq⟩
        · rintro ⟨i, rfl, rc, hrc, heq⟩
          exact findLatest_isSome.mpr ⟨rc, hrc, by simp [heq]⟩
    · rcases hfl : findLatest (fun (i2 : InvoiceDoc) => i2.deal_id == d.id)
          st.invoices with _ | inv
      · simp only [hfl]
        rfl
      · rcases hfl2 : findLatest
            (fun (r : ReceiptDoc) => r.invoice_token == inv.view_token)
            st.receipts with _ | rc
        · simp only [hfl, hfl2]
          rfl
        · simp only [hfl, hfl2]
          rfl

/-- C1 witness: the snapshot of an unmatched pair on the concrete store
fails with NotFound. -/
theorem snapshot_contract_witness :
    deal_snapshot "Nope" "X" stPaid = .err (.notFound "Deal not found") :=
  ((snapshot_contract stPaid reachable_stPaid "Nope" "X").1).mpr (by decide)

end DealHub
